import Mathlib

/-!
Verification development for the report-size-deltas repository
(src/reportsizedeltas/reportsizedeltas.py).

The Python source is shallowly embedded below: pure fragments become Lean
functions, the mutable loops of generate_report become explicit state-passing
folds, Python exceptions (ZeroDivisionError, JSONDecodeError, KeyError,
ValueError) become Except results, Python ints become Int, and Python float
arithmetic is modelled exactly over the rationals (every value the code
divides is an integer, and the concrete quantities appearing in theorems
are exactly representable, so the rational model agrees with the binary64
values at every point a theorem mentions).
-/

instance {ε α : Type} [DecidableEq ε] [DecidableEq α] : DecidableEq (Except ε α) :=
  fun a b =>
    match a, b with
    | Except.error e, Except.error f =>
      if h : e = f then Decidable.isTrue (by rw [h])
      else Decidable.isFalse (fun hh => h (Except.error.inj hh))
    | Except.ok x, Except.ok y =>
      if h : x = y then Decidable.isTrue (by rw [h])
      else Decidable.isFalse (fun hh => h (Except.ok.inj hh))
    | Except.error _, Except.ok _ => Decidable.isFalse (fun hh => Except.noConfusion hh)
    | Except.ok _, Except.error _ => Decidable.isFalse (fun hh => Except.noConfusion hh)

namespace ReportSizeDeltas

/-! ## Emoji constants (generate_report, lines 559-561) -/

def emoji_decreased : String := ":green_heart:"

def emoji_increased : String := ":bangbang:"

def emoji_warning : String := ":warning:"

/-! ## Python round

Models Python round() applied to v/1024 for an integer v: round half to
even on the exact rational value (v/1024 is exactly representable in
binary64 for all inputs of interest, so the float and rational values
coincide). -/

def pyRound (q : Rat) : Int :=
  let f : Int := ⌊q⌋
  if q - f < 1/2 then f
  else if q - f > 1/2 then f + 1
  else if f % 2 = 0 then f else f + 1

/-! ## Byte-cell formatting

The source formats a detail-table cell (lines 563-584) and a summary-table
byte cell (lines 592-604) by sequentially overwriting print_result; the
shadowing lets below reproduce that sequence exactly.  A detail cell is an
int when the sketch had a matching baseline sample and the empty string
otherwise (modelled Option Int; none is the empty-string case). -/

def byteEmoji (v : Int) : String :=
  let r := ""
  let r := if 0 < v ∧ v < 2048 then emoji_warning ++ "+" else r
  let r := if 2047 < v then emoji_increased ++ "+" else r
  let r := if v < 0 then emoji_decreased else r
  r

def fmtDetailCell (c : Option Int) : String :=
  match c with
  | none => "-"
  | some v =>
    if 2048 < v ∨ v < -2048 then
      byteEmoji v ++ toString (pyRound ((v : Rat) / 1024)) ++ "K"
    else
      byteEmoji v ++ toString v

def fmtSummaryByte (v : Int) : String :=
  if 2047 < v ∨ v < -2048 then
    byteEmoji v ++ toString (pyRound ((v : Rat) / 1024)) ++ "K"
  else
    byteEmoji v ++ toString v

/-! ## Percent-cell formatting (summary table, lines 605-613)

fmt2f models the Python format string that prints a float with two decimal
places: round half to even at the second decimal. -/

def percentEmoji (q : Rat) : String :=
  let r := ""
  let r := if 0 < q then emoji_warning ++ "+" else r
  let r := if 1 < q then emoji_increased ++ "+" else r
  let r := if q < 0 then emoji_decreased else r
  r

def fmt2f (q : Rat) : String :=
  let n := (pyRound (q * 100)).natAbs
  let sign := if q < 0 then "-" else ""
  sign ++ toString (n / 100) ++ "." ++ (if n % 100 < 10 then "0" else "") ++ toString (n % 100)

def fmtSummaryPercent (q : Rat) : String :=
  percentEmoji q ++ fmt2f q

/-! ## Data model

A sketches-report JSON document has shape
boards: [ \x7b board, target, sketches: [ \x7b name, sizes, compilation_success \x7d ] \x7d ].
generate_report reads, for each sketch, exactly sizes[0].flash_bytes and
sizes[0].ram_bytes (lines 506-516); those two fields of sizes[0] are
flattened into the Sample structure, together with the percentage fields
that the document carries but the delta computation never reads. -/

structure Sample where
  name : String
  flash_bytes : Int
  flash_percentage : Rat
  ram_bytes : Int
  ram_percentage : Rat
  compilation_success : Bool
deriving DecidableEq, Repr

structure Board where
  board : String
  target : String
  sketches : List Sample
deriving DecidableEq, Repr

/-! ## Delta computation (generate_report, lines 505-516) -/

structure Delta where
  flash_delta_bytes : Int
  ram_delta_bytes : Int
  flash_delta_percentage : Rat
  ram_delta_percentage : Rat
deriving DecidableEq, Repr

/-- The four deltas of lines 506-516: byte deltas are differences of the
byte fields; percentage deltas are recomputed from the byte fields as
(current/baseline)*100 - 100. -/
def delta_values (sketch master : Sample) : Delta :=
  { flash_delta_bytes := sketch.flash_bytes - master.flash_bytes
  , ram_delta_bytes := sketch.ram_bytes - master.ram_bytes
  , flash_delta_percentage :=
      ((sketch.flash_bytes : Rat) / (master.flash_bytes : Rat)) * 100 - 100
  , ram_delta_percentage :=
      ((sketch.ram_bytes : Rat) / (master.ram_bytes : Rat)) * 100 - 100 }

/-- Lines 505-516 with Python exception behaviour made explicit: the two
true divisions raise ZeroDivisionError when the matched baseline sample
reports zero flash or zero RAM bytes; nothing in the source guards them. -/
def sketchDelta (sketch master : Sample) : Except String Delta :=
  if master.flash_bytes = 0 ∨ master.ram_bytes = 0 then
    Except.error "ZeroDivisionError"
  else
    Except.ok (delta_values sketch master)

/-! ## Baseline matching (generate_report, lines 492-500)

The inner loop over a baseline board's sketches stops at the first name
match (break); the outer loop over baseline boards has no break, so a
later board group with the same target label overwrites an earlier
match. -/

def first_name_match (sketches : List Sample) (name : String) : Option Sample :=
  match sketches with
  | [] => none
  | s :: rest => if s.name = name then some s else first_name_match rest name

def find_master_sketch (masters : List Board) (target name : String) : Option Sample :=
  masters.foldl
    (fun acc mb =>
      if mb.target = target then
        match first_name_match mb.sketches name with
        | some s => some s
        | none => acc
      else acc)
    none

/-! ## Per-board min/max accumulators (lines 452-459 and 518-533) -/

structure Acc where
  flash_b_max : Int
  flash_b_min : Int
  flash_p_max : Rat
  flash_p_min : Rat
  ram_b_max : Int
  ram_b_min : Int
  ram_p_max : Rat
  ram_p_min : Rat
deriving DecidableEq, Repr

def accZero : Acc :=
  { flash_b_max := 0, flash_b_min := 0, flash_p_max := 0, flash_p_min := 0
  , ram_b_max := 0, ram_b_min := 0, ram_p_max := 0, ram_p_min := 0 }

/-- The eight conditional updates of lines 518-533. -/
def updateAcc (a : Acc) (d : Delta) : Acc :=
  { flash_b_max := if d.flash_delta_bytes > a.flash_b_max then d.flash_delta_bytes else a.flash_b_max
  , flash_b_min := if d.flash_delta_bytes < a.flash_b_min then d.flash_delta_bytes else a.flash_b_min
  , flash_p_max := if d.flash_delta_percentage > a.flash_p_max then d.flash_delta_percentage else a.flash_p_max
  , flash_p_min := if d.flash_delta_percentage < a.flash_p_min then d.flash_delta_percentage else a.flash_p_min
  , ram_b_max := if d.ram_delta_bytes > a.ram_b_max then d.ram_delta_bytes else a.ram_b_max
  , ram_b_min := if d.ram_delta_bytes < a.ram_b_min then d.ram_delta_bytes else a.ram_b_min
  , ram_p_max := if d.ram_delta_percentage > a.ram_p_max then d.ram_delta_percentage else a.ram_p_max
  , ram_p_min := if d.ram_delta_percentage < a.ram_p_min then d.ram_delta_percentage else a.ram_p_min }

/-! ## Detail-table representation

detailed_report_data is a Python list of heterogeneous lists: header rows
hold strings, data rows hold a string heading followed by int deltas or
empty strings.  Cell models one entry. -/

inductive Cell where
  | s : String → Cell
  | i : Int → Cell
deriving DecidableEq, Repr

/-- Python str() of a cell, as used by the HTML generators. -/
def cellStr : Cell → String
  | Cell.s x => x
  | Cell.i v => toString v

/-- Python str.upper, as used on target labels. Modelled as a character map
(the labels of interest are ASCII, where this agrees with Python). -/
def pyUpper (s : String) : String :=
  String.mk (s.data.map Char.toUpper)

/-- Python name.replace("libraries/", "") from line 466: remove every
occurrence of the pattern, scanning left to right without rescanning
emitted output, exactly like str.replace with an empty replacement. -/
def stripLibraries (s : String) : String :=
  String.mk (go s.data)
where
  go : List Char → List Char
  | 'l' :: 'i' :: 'b' :: 'r' :: 'a' :: 'r' :: 'i' :: 'e' :: 's' :: '/' :: rest => go rest
  | c :: rest => c :: go rest
  | [] => []

/-- get_report_row_number (lines 844-853): index of the first row whose
heading cell equals row_heading, with 0 doubling as the not-found
sentinel.  The scan includes the two header rows.  (Python compares
i[0] == row_heading; an int cell never equals a string.) -/
def get_report_row_number (report : List (List Cell)) (row_heading : String) : Nat :=
  go 0 report
where
  go (n : Nat) : List (List Cell) → Nat
  | [] => 0
  | row :: rest =>
    match row.headD (Cell.s "") with
    | Cell.s x => if x = row_heading then n else go (n + 1) rest
    | Cell.i _ => go (n + 1) rest

/-- Assignment report[r] := f report[r] (in-range in every reachable state;
out-of-range would raise IndexError in Python and is a no-op here). -/
def modifyRow (f : List Cell → List Cell) : Nat → List (List Cell) → List (List Cell)
  | _, [] => []
  | 0, row :: rest => f row :: rest
  | n + 1, row :: rest => row :: modifyRow f n rest

/-- Assignment report[r][c] := v. -/
def setCell (report : List (List Cell)) (r c : Nat) (v : Cell) : List (List Cell) :=
  modifyRow (fun row => row.set c v) r report

/-- n copies of the pair [a, b], as produced by the row-extension loops
(lines 442-443 and 477-478). -/
def pairCells (a b : Cell) : Nat → List Cell
  | 0 => []
  | n + 1 => a :: b :: pairCells a b n

/-! ## Summary-table rows

Each data row of summary_report_data (lines 545-549) has the fixed shape
[target.upper(), flash_b_min, flash_b_max, flash_p_min, flash_p_max,
 ram_b_min, ram_b_max, ram_p_min, ram_p_max]. -/

structure SummaryRow where
  target : String
  flash_b_min : Int
  flash_b_max : Int
  flash_p_min : Rat
  flash_p_max : Rat
  ram_b_min : Int
  ram_b_max : Int
  ram_p_min : Rat
  ram_p_max : Rat
deriving DecidableEq, Repr

def mkSummaryRow (target : String) (a : Acc) : SummaryRow :=
  { target := pyUpper target
  , flash_b_min := a.flash_b_min, flash_b_max := a.flash_b_max
  , flash_p_min := a.flash_p_min, flash_p_max := a.flash_p_max
  , ram_b_min := a.ram_b_min, ram_b_max := a.ram_b_max
  , ram_p_min := a.ram_p_min, ram_p_max := a.ram_p_max }

/-! ## The generate_report loops (lines 448-556) -/

/-- One iteration of the per-sketch loop (lines 462-539), acting on the
detail table and the per-board accumulators. -/
def sketchStep (masters : List Board) (target : String) (board_count col : Nat)
    (st : List (List Cell) × Acc) (sketch : Sample) :
    Except String (List (List Cell) × Acc) :=
  let report := st.1
  let acc := st.2
  let sketch_name := stripLibraries sketch.name
  let position := get_report_row_number report sketch_name
  let placed :=
    if position = 0 then
      (report ++ [Cell.s sketch_name :: pairCells (Cell.s "") (Cell.s "") board_count],
       report.length)
    else
      (report, position)
  let report2 := placed.1
  let row_number := placed.2
  match find_master_sketch masters target sketch.name with
  | some master =>
    match sketchDelta sketch master with
    | Except.error e => Except.error e
    | Except.ok d =>
      let report3 := setCell report2 row_number col (Cell.i d.flash_delta_bytes)
      let report4 := setCell report3 row_number (col + 1) (Cell.i d.ram_delta_bytes)
      Except.ok (report4, updateAcc acc d)
  | none =>
    let report3 := setCell report2 row_number col (Cell.s "")
    let report4 := setCell report3 row_number (col + 1) (Cell.s "")
    Except.ok (report4, acc)

/-- The per-sketch loop of lines 462-539 over a board's sketches. -/
def sketchLoop (masters : List Board) (target : String) (board_count col : Nat) :
    List Sample → (List (List Cell) × Acc) → Except String (List (List Cell) × Acc)
  | [], st => Except.ok st
  | sk :: rest, st =>
    match sketchStep masters target board_count col st sk with
    | Except.error e => Except.error e
    | Except.ok st2 => sketchLoop masters target board_count col rest st2

/-- One iteration of the per-board loop (lines 448-555): extend the detail
header row with the upper-cased target, run the sketch loop with zeroed
accumulators, append the summary row, advance column_number by 2. -/
def boardStep (masters : List Board) (board_count : Nat)
    (st : List (List Cell) × List SummaryRow × Nat) (board : Board) :
    Except String (List (List Cell) × List SummaryRow × Nat) :=
  let report := modifyRow (fun row => row ++ [Cell.s (pyUpper board.target)]) 0 st.1
  match sketchLoop masters board.target board_count st.2.2 board.sketches (report, accZero) with
  | Except.error e => Except.error e
  | Except.ok (report2, acc) =>
    Except.ok (report2, st.2.1 ++ [mkSummaryRow board.target acc], st.2.2 + 2)

/-- The outer loop of line 448 over all current boards. -/
def boardLoop (masters : List Board) (board_count : Nat) :
    List Board → (List (List Cell) × List SummaryRow × Nat) →
    Except String (List (List Cell) × List SummaryRow × Nat)
  | [], st => Except.ok st
  | b :: rest, st =>
    match boardStep masters board_count st b with
    | Except.error e => Except.error e
    | Except.ok st2 => boardLoop masters board_count rest st2

def first_row_heading : String := "Target"

def second_row_heading : String := "Example"

/-- Lines 422-556: build detailed_report_data (with its two header rows)
and the summary data rows, before emoji post-processing. -/
def build_report_data (sketches_reports master_sketches_reports : List Board) :
    Except String (List (List Cell) × List SummaryRow) :=
  let board_count := sketches_reports.length
  let header0 : List Cell := [Cell.s first_row_heading]
  let header1 : List Cell :=
    Cell.s second_row_heading :: pairCells (Cell.s "FLASH") (Cell.s "RAM") board_count
  match boardLoop master_sketches_reports board_count sketches_reports
      ([header0, header1], ([] : List SummaryRow), 1) with
  | Except.error e => Except.error e
  | Except.ok (report, srows, _) => Except.ok (report, srows)

/-! ## Emoji post-processing (lines 563-617) -/

/-- One detail cell of a data row (lines 566-584).  A non-empty string cell
would hit Python int() and raise ValueError; no reachable detail data row
contains one (data cells are ints or empty strings). -/
def processDetailCell (c : Cell) : Except String String :=
  match c with
  | Cell.s x => if x = "" then Except.ok "-" else Except.error "ValueError"
  | Cell.i v => Except.ok (fmtDetailCell (some v))

/-- Rows range(2, len) of the detail table, cells range(1, len(row)). -/
def processDetail (report : List (List Cell)) : Except String (List (List Cell)) :=
  match report with
  | r0 :: r1 :: rest =>
    match rest.mapM (fun row =>
      match row with
      | [] => Except.ok ([] : List Cell)
      | h :: cells => (cells.mapM (fun c => (processDetailCell c).map Cell.s)).map (h :: ·)) with
    | Except.error e => Except.error e
    | Except.ok rest2 => Except.ok (r0 :: r1 :: rest2)
  | short => Except.ok short

/-- Rows range(2, len) of the summary table (lines 587-617): cells 1,2,5,6
are byte-formatted, cells 3,4,7,8 percent-formatted. -/
def processSummaryRow (r : SummaryRow) : List String :=
  [ r.target
  , fmtSummaryByte r.flash_b_min, fmtSummaryByte r.flash_b_max
  , fmtSummaryPercent r.flash_p_min, fmtSummaryPercent r.flash_p_max
  , fmtSummaryByte r.ram_b_min, fmtSummaryByte r.ram_b_max
  , fmtSummaryPercent r.ram_p_min, fmtSummaryPercent r.ram_p_max ]

/-! ## HTML rendering (generate_detailed_html_table, generate_summary_html_table) -/

/-- Python "".join. -/
def concatStrings : List String → String
  | [] => ""
  | s :: rest => s ++ concatStrings rest

def summary_header_row_html (row : List String) : String :=
  "<tr>"
    ++ (match row with
        | [] => ""
        | h :: rest =>
          "<th nowrap>" ++ h ++ "</th>"
            ++ concatStrings (rest.map (fun c => "<th colspan=" ++ sq ++ "2" ++ sq ++ " align=" ++ sq ++ "center" ++ sq ++ " nowrap>" ++ c ++ "</th>")))
    ++ "</tr>\n"
where
  sq : String := "\x27"

def summary_data_row_html (row : List String) : String :=
  "<tr>"
    ++ (match row with
        | [] => ""
        | h :: rest =>
          "<td nowrap>" ++ h ++ "</td>"
            ++ concatStrings (rest.map (fun c => "<td align=" ++ "\x27" ++ "center" ++ "\x27" ++ " nowrap>" ++ c ++ "</td>")))
    ++ "</tr>\n"

def generate_summary_html_table (row_list : List (List String)) : String :=
  "<table>\n"
    ++ summary_header_row_html (row_list.headD [])
    ++ concatStrings ((row_list.drop 1).map summary_data_row_html)
    ++ "</table>\n"

def detailed_header_row_html (row : List Cell) : String :=
  "<tr>"
    ++ (match row with
        | [] => ""
        | h :: rest =>
          "<th nowrap>" ++ cellStr h ++ "</th>"
            ++ concatStrings (rest.map (fun c => "<th colspan=" ++ "\x27" ++ "2" ++ "\x27" ++ " align=" ++ "\x27" ++ "center" ++ "\x27" ++ " nowrap>" ++ cellStr c ++ "</th>")))
    ++ "</tr>\n"

def detailed_data_row_html (row : List Cell) : String :=
  "<tr>" ++ concatStrings (row.map (fun c => "<td nowrap>" ++ cellStr c ++ "</td>")) ++ "</tr>\n"

def generate_detailed_html_table (row_list : List (List Cell)) : String :=
  "<table>\n"
    ++ detailed_header_row_html (row_list.headD [])
    ++ concatStrings ((row_list.drop 1).map detailed_data_row_html)
    ++ "</table>\n"

/-! ## Report assembly (lines 406-409 and 619-637) -/

def report_key_beginning : String :=
  "Memory usage test (comparing PR agains master branch)"

/-- Line 409: defined by the source and never referenced again. -/
def maximum_report_length : Nat := 262144

def summary_header_1 : List String :=
  ["Memory", "FLASH [bytes]", "FLASH [%]", "RAM [bytes]", "RAM [%]"]

def summary_header_2 : List String :=
  ["Target", "Min", "Max", "Min", "Max", "Min", "Max", "Min", "Max"]

/-- generate_report (lines 400-637): build the two tables, post-process
them, and concatenate the Markdown body.  The returned string is not
length-checked anywhere. -/
def generate_report (sketches_reports master_sketches_reports : List Board) :
    Except String String :=
  match build_report_data sketches_reports master_sketches_reports with
  | Except.error e => Except.error e
  | Except.ok (detail, srows) =>
    match processDetail detail with
    | Except.error e => Except.error e
    | Except.ok detail2 =>
      let summary2 := summary_header_1 :: summary_header_2 :: srows.map processSummaryRow
      Except.ok
        ("### " ++ report_key_beginning ++ "\n\n"
          ++ "The table below shows the summary of memory usage change (min - max) in bytes and percentage for each target.\n\n"
          ++ generate_summary_html_table summary2 ++ "\n"
          ++ "<details>\n<summary>Click to expand the detailed deltas report [usage change in BYTES]</summary>\n\n"
          ++ generate_detailed_html_table detail2 ++ "\n"
          ++ "</details>\n")

/-! ## Shard loading and consolidation (get_sketches_reports, lines 354-398) -/

/-- The outcome of opening and parsing one file of the artifact folder:
not valid JSON (json.load raises), valid JSON without a top-level boards
key (the subscript raises KeyError), or valid with a boards array. -/
inductive ParsedFile where
  | invalid : ParsedFile
  | missingBoards : ParsedFile
  | valid : List Board → ParsedFile
deriving DecidableEq, Repr

/-- Lines 365-375: concatenate the boards arrays of every file, in
directory order; the first unreadable file aborts the whole load. -/
def collect_boards : List ParsedFile → Except String (List Board)
  | [] => Except.ok []
  | ParsedFile.invalid :: _ => Except.error "json.decoder.JSONDecodeError"
  | ParsedFile.missingBoards :: _ => Except.error "KeyError: boards"
  | ParsedFile.valid bs :: rest => (collect_boards rest).map (bs ++ ·)

/-- Lines 382-394: fold the fragments into one entry per board id (Python
dict preserves insertion order); the first occurrence fixes the target,
later occurrences extend the sketches list. -/
def addFrag (acc : List Board) (f : Board) : List Board :=
  if acc.any (fun b => b.board == f.board) then
    acc.map (fun b =>
      if b.board == f.board then { b with sketches := b.sketches ++ f.sketches } else b)
  else
    acc ++ [f]

def consolidate_boards (frags : List Board) : List Board :=
  frags.foldl addFrag []

/-- get_sketches_reports on the parsed, numerically-sorted directory
listing (the numeric-aware filename sort fixes the order in which files
are read; it is irrelevant to the properties below, so the function takes
the ordered listing as input).  Returns none (Python None) when no boards
were found, otherwise the consolidated list. -/
def get_sketches_reports (files : List ParsedFile) : Except String (Option (List Board)) :=
  match collect_boards files with
  | Except.error e => Except.error e
  | Except.ok frags =>
    if frags.isEmpty then Except.ok none
    else Except.ok (some (consolidate_boards frags))

def isError {ε α : Type} : Except ε α → Bool
  | Except.error _ => true
  | Except.ok _ => false

/-- Length of a successfully generated report body (0 when generation
raised). -/
def reportLen : Except String String → Nat
  | Except.ok s => s.length
  | Except.error _ => 0

/-! ## Specification-side definitions

The following definitions transcribe the words of the specification, to be
compared with the source-embedded functions above. -/

/-- Spec 4.3 fold step: min = min(min, delta), max = max(max, delta),
independently for bytes and percent, for flash and RAM. -/
def specStep (a : Acc) (d : Delta) : Acc :=
  { flash_b_max := max a.flash_b_max d.flash_delta_bytes
  , flash_b_min := min a.flash_b_min d.flash_delta_bytes
  , flash_p_max := max a.flash_p_max d.flash_delta_percentage
  , flash_p_min := min a.flash_p_min d.flash_delta_percentage
  , ram_b_max := max a.ram_b_max d.ram_delta_bytes
  , ram_b_min := min a.ram_b_min d.ram_delta_bytes
  , ram_p_max := max a.ram_p_max d.ram_delta_percentage
  , ram_p_min := min a.ram_p_min d.ram_delta_percentage }

/-- Spec 4.3: fold the four (min, max) pairs, seeded at (0, 0), over the
deltas of the board's matched samples. -/
def specFold (ds : List Delta) : Acc :=
  ds.foldl specStep accZero

/-- The deltas of exactly those samples that have a baseline match, in
sample order. -/
def matchedDeltas (masters : List Board) (target : String) (sketches : List Sample) :
    List Delta :=
  sketches.filterMap (fun sk => (find_master_sketch masters target sk.name).map (delta_values sk))

/-- The matched baseline sample of sk, if any, reports nonzero flash and
RAM bytes (so the delta divisions cannot raise). -/
def baselineNonzero (masters : List Board) (target : String) (sk : Sample) : Bool :=
  match find_master_sketch masters target sk.name with
  | some m => !(m.flash_bytes == 0) && !(m.ram_bytes == 0)
  | none => true

/-- The first name match inside the last baseline group whose target
matches and which contains a name match at all. -/
def last_group_first_match (masters : List Board) (target name : String) : Option Sample :=
  (masters.filterMap
    (fun mb => if mb.target = target then first_name_match mb.sketches name else none)).getLast?

/-- Spec 4.2 consolidation, as worded: one group per distinct board id in
first-seen order; the first occurrence fixes the target; all occurrences'
sketch lists are concatenated in encounter order. -/
def spec_consolidate : List Board → List Board
  | [] => []
  | f :: rest =>
    { board := f.board, target := f.target
    , sketches := f.sketches ++ ((rest.filter (fun g => g.board == f.board)).map Board.sketches).flatten }
      :: spec_consolidate (rest.filter (fun g => !(g.board == f.board)))
termination_by l => l.length
decreasing_by
  simp only [List.length_cons]
  exact Nat.lt_succ_of_le (List.length_filter_le _ _)

/-- The board b with the sketch lists of all its fragments among frags
appended, in order: the shape of every already-consolidated entry while
later fragments are folded in. -/
def mergeInto (frags : List Board) (b : Board) : Board :=
  { b with
    sketches :=
      b.sketches ++ ((frags.filter (fun g => g.board == b.board)).map Board.sketches).flatten }

/-! ## Concrete inputs used by witnesses and counterexamples -/

/-- A sample with the given name and byte counts (percentage fields zero:
the delta computation never reads them). -/
def sample0 (n : String) (f r : Int) : Sample :=
  { name := n, flash_bytes := f, flash_percentage := 0
  , ram_bytes := r, ram_percentage := 0, compilation_success := true }

def c3cur : Sample :=
  { name := "s", flash_bytes := 2100, flash_percentage := 3
  , ram_bytes := 1050, ram_percentage := 4, compilation_success := true }

def c3master : Sample :=
  { name := "s", flash_bytes := 2000, flash_percentage := 9
  , ram_bytes := 1000, ram_percentage := 8, compilation_success := true }

def c5a1 : Sample := sample0 "A" 100 50

def c5a2 : Sample := sample0 "A" 999 888

def c5masters : List Board := [⟨"b1", "t", [c5a1]⟩, ⟨"b2", "t", [c5a2]⟩]

def c4master : Sample := sample0 "s" 100 200

def c4current : Sample := sample0 "s" 90 150

def c4masters : List Board := [⟨"mb", "t", [c4master]⟩]

def c4board : Board := ⟨"b", "t", [c4current]⟩

def c6sA : Sample := sample0 "A" 1 1

def c6sB : Sample := sample0 "B" 2 2

def c6sC : Sample := sample0 "C" 3 3

def c6frag1 : Board := ⟨"uno", "t", [c6sA, c6sB]⟩

def c6frag2 : Board := ⟨"uno", "t2", [c6sC]⟩

def c7board : Board := ⟨"b", "T", []⟩

def c8sketch : Sample := sample0 "s" 10 20

def c8master : Sample := sample0 "s" 0 200

def c10sketch : Sample := sample0 "Example" 105 207

def c10master : Sample := sample0 "Example" 100 200

/-! # Theorems -/

/-- Helper: the summary-table formatter compacts 2048 to 2K (its threshold
is 2047 < v), unlike the detail-table formatter. -/
theorem fmtSummaryByte_2048 : fmtSummaryByte 2048 = emoji_increased ++ "+2K" := by
  have h : pyRound (((2048 : Int) : Rat) / 1024) = 2 := by norm_num [pyRound]
  rw [fmtSummaryByte, if_pos (Or.inl (by norm_num)), h]
  decide

/-- C1 (amended): boundary rendering of detail-table byte cells: 2047
renders warning +2047; 2048 renders alert +2048 (the detail table
K-compacts only strictly above 2048); -2047 and -2048 render decrease
followed by the raw value (K-compaction only strictly below -2048); 0
renders the literal 0; a no-baseline cell renders a dash. -/
theorem detail_cell_threshold_boundaries :
    fmtDetailCell (some 2047) = emoji_warning ++ "+2047"
    ∧ fmtDetailCell (some 2048) = emoji_increased ++ "+2048"
    ∧ fmtDetailCell (some (-2047)) = emoji_decreased ++ "-2047"
    ∧ fmtDetailCell (some (-2048)) = emoji_decreased ++ "-2048"
    ∧ fmtDetailCell (some 0) = "0"
    ∧ fmtDetailCell none = "-" := by
  decide

/-- C1 counterexample: contrary to the claim, a detail-table byte delta of
2048 is not rendered as alert +2K, and -2048 is not rendered as decrease
-2K; both keep their raw values. -/
theorem detail_cell_2048_not_compacted :
    fmtDetailCell (some 2048) ≠ emoji_increased ++ "+2K"
    ∧ fmtDetailCell (some (-2048)) ≠ emoji_decreased ++ "-2K" := by
  decide

/-- C2 (amended): the detail-table and summary-table byte-cell formatters
agree at every signed integer except 2048, where their compaction
thresholds differ. -/
theorem byte_cell_formatters_agree (v : Int) (h : v ≠ 2048) :
    fmtDetailCell (some v) = fmtSummaryByte v := by
  rw [fmtDetailCell, fmtSummaryByte]
  by_cases h1 : 2048 < v ∨ v < -2048
  · rw [if_pos h1, if_pos (by omega : 2047 < v ∨ v < -2048)]
  · rw [if_neg h1, if_neg (by omega : ¬(2047 < v ∨ v < -2048))]

/-- C2 witness: the two formatters agree at 5. -/
theorem byte_cell_formatters_agree_witness :
    (5 : Int) ≠ 2048 ∧ fmtDetailCell (some 5) = fmtSummaryByte 5 :=
  ⟨by decide, byte_cell_formatters_agree 5 (by decide)⟩

/-- C2 counterexample: at 2048 the detail formatter keeps the raw value
while the summary formatter compacts to 2K, so the two byte-cell
formatters are not the same function. -/
theorem byte_cell_formatters_differ_at_2048 :
    fmtDetailCell (some 2048) ≠ fmtSummaryByte 2048 := by
  rw [fmtSummaryByte_2048]
  decide

/-- C3: for a matched pair, the byte deltas are the differences of the
byte fields and the percent deltas are recomputed from the byte fields as
(current/baseline)*100 - 100; the input's own percentage fields never
influence the result. -/
theorem delta_recomputed_from_bytes (cur master : Sample)
    (hf : master.flash_bytes ≠ 0) (hr : master.ram_bytes ≠ 0) :
    sketchDelta cur master = Except.ok
      { flash_delta_bytes := cur.flash_bytes - master.flash_bytes
      , ram_delta_bytes := cur.ram_bytes - master.ram_bytes
      , flash_delta_percentage :=
          ((cur.flash_bytes : Rat) / (master.flash_bytes : Rat)) * 100 - 100
      , ram_delta_percentage :=
          ((cur.ram_bytes : Rat) / (master.ram_bytes : Rat)) * 100 - 100 }
    ∧ ∀ p1 p2 p3 p4 : Rat,
        sketchDelta { cur with flash_percentage := p1, ram_percentage := p2 }
            { master with flash_percentage := p3, ram_percentage := p4 }
          = sketchDelta cur master := by
  constructor
  · rw [sketchDelta, if_neg (by simp [hf, hr])]
    rfl
  · intro p1 p2 p3 p4
    rfl

/-- C3 witness: current flash 2100 against baseline flash 2000 yields byte
delta 100 and percent delta exactly 5 (and RAM 1050 against 1000 yields 50
and 5), with nonzero percentage fields in the inputs playing no role. -/
theorem delta_recomputed_from_bytes_witness :
    sketchDelta c3cur c3master = Except.ok
      { flash_delta_bytes := 100, ram_delta_bytes := 50
      , flash_delta_percentage := 5, ram_delta_percentage := 5 } := by
  have h := (delta_recomputed_from_bytes c3cur c3master (by decide) (by decide)).1
  rw [h]
  norm_num [c3cur, c3master, Except.ok.injEq, Delta.mk.injEq]

/-- C8 (amended): the percent-delta division is not guarded: whenever the
matched baseline sample reports zero flash or zero RAM bytes, the delta
computation of lines 505-516 raises ZeroDivisionError. -/
theorem zero_baseline_raises (cur master : Sample)
    (h : master.flash_bytes = 0 ∨ master.ram_bytes = 0) :
    sketchDelta cur master = Except.error "ZeroDivisionError" := by
  rw [sketchDelta, if_pos h]

/-- C8 witness: a concrete zero-flash baseline raises. -/
theorem zero_baseline_raises_witness :
    sketchDelta c8sketch c8master = Except.error "ZeroDivisionError" :=
  zero_baseline_raises c8sketch c8master (Or.inl (by decide))

/-- C8 counterexample: report generation crashes (propagates
ZeroDivisionError) on a report whose matched baseline sample has a flash
byte count of zero, contrary to the claim that this edge case never
raises. -/
theorem zero_baseline_crashes_generate_report :
    generate_report [⟨"b", "t", [c8sketch]⟩] [⟨"mb", "t", [c8master]⟩]
      = Except.error "ZeroDivisionError" := by
  decide

/-- C10: the detail-table row lookup returns 0 both for the first header
row (whose heading is Target) and for a missing heading, while scanning
header rows too.  Consequently a sketch named Example is assigned row 1,
overwriting the FLASH/RAM labels of the second header row and adding no
data row, and each sketch named Target appends a fresh row even when an
identical row already exists. -/
theorem detail_row_lookup_header_collision :
    get_report_row_number [[Cell.s first_row_heading], [Cell.s second_row_heading]]
        second_row_heading = 1
    ∧ get_report_row_number [[Cell.s first_row_heading], [Cell.s second_row_heading]]
        first_row_heading = 0
    ∧ get_report_row_number [[Cell.s first_row_heading], [Cell.s second_row_heading]]
        "NotPresent" = 0
    ∧ (build_report_data [⟨"b", "T", [c10sketch]⟩] [⟨"mb", "T", [c10master]⟩]).map Prod.fst
        = Except.ok [[Cell.s "Target", Cell.s "T"], [Cell.s "Example", Cell.i 5, Cell.i 7]]
    ∧ (build_report_data [⟨"b", "T", [sample0 "Target" 1 2, sample0 "Target" 1 2]⟩] []).map Prod.fst
        = Except.ok
            [[Cell.s "Target", Cell.s "T"], [Cell.s "Example", Cell.s "FLASH", Cell.s "RAM"],
             [Cell.s "Target", Cell.s "", Cell.s ""], [Cell.s "Target", Cell.s "", Cell.s ""]] := by
  refine ⟨by decide, by decide, by decide, by decide, by decide⟩

theorem getLast?_cons_or {α : Type} (a : α) (l : List α) :
    (a :: l).getLast? = l.getLast?.or (some a) := by
  cases l with
  | nil => simp
  | cons b t =>
    rw [List.getLast?_cons_cons]
    cases h : (b :: t).getLast? with
    | none => simp at h
    | some x => simp

theorem find_master_sketch_foldl (target name : String) :
    ∀ (ms : List Board) (acc : Option Sample),
      ms.foldl
          (fun acc mb =>
            if mb.target = target then
              match first_name_match mb.sketches name with
              | some s => some s
              | none => acc
            else acc)
          acc
        = ((ms.filterMap
              (fun mb => if mb.target = target then first_name_match mb.sketches name else none)).getLast?).or
            acc := by
  intro ms
  induction ms with
  | nil => intro acc; simp
  | cons mb ms ih =>
    intro acc
    rw [List.foldl_cons, List.filterMap_cons]
    by_cases ht : mb.target = target
    · rw [if_pos ht, if_pos ht]
      cases hm : first_name_match mb.sketches name with
      | none => rw [ih acc]
      | some s =>
        rw [ih (some s), getLast?_cons_or]
        cases (List.filterMap
            (fun mb => if mb.target = target then first_name_match mb.sketches name else none)
            ms).getLast? <;> simp
    · rw [if_neg ht, if_neg ht]
      exact ih acc

/-- C5 (amended): the baseline sample used for a delta is the first sample
whose name matches inside the last baseline board group whose target label
matches and which contains any name match; within one group later
duplicate names are ignored, but a later group with the same target label
overrides an earlier one (the outer search loop has no break). -/
theorem find_master_sketch_last_group (masters : List Board) (target name : String) :
    find_master_sketch masters target name = last_group_first_match masters target name := by
  rw [find_master_sketch, last_group_first_match, find_master_sketch_foldl target name masters none]
  exact Option.or_none

/-- C5 counterexample: with two baseline groups of target t both containing
a sample named A, the sample of the second (last) group is selected, not
the first-group sample the claim requires. -/
theorem find_master_sketch_not_first_group :
    find_master_sketch c5masters "t" "A" = some c5a2 ∧ c5a2 ≠ c5a1 := by
  decide

theorem collect_boards_error_iff (files : List ParsedFile) :
    (∃ f ∈ files, f = ParsedFile.invalid ∨ f = ParsedFile.missingBoards)
      ↔ isError (collect_boards files) = true := by
  induction files with
  | nil => simp [collect_boards, isError]
  | cons f rest ih =>
    cases f with
    | invalid => simp [collect_boards, isError]
    | missingBoards => simp [collect_boards, isError]
    | valid bs =>
      have hmap : isError ((collect_boards rest).map (bs ++ ·)) = isError (collect_boards rest) := by
        cases collect_boards rest <;> rfl
      simp only [collect_boards, hmap, List.mem_cons]
      rw [← ih]
      constructor
      · rintro ⟨g, hg | hg, hbad⟩
        · rw [hg] at hbad; rcases hbad with h | h <;> exact absurd h (by simp)
        · exact ⟨g, hg, hbad⟩
      · rintro ⟨g, hg, hbad⟩
        exact ⟨g, Or.inr hg, hbad⟩

theorem collect_boards_all_empty (files : List ParsedFile)
    (h : ∀ f ∈ files, f = ParsedFile.valid []) :
    collect_boards files = Except.ok [] := by
  induction files with
  | nil => rfl
  | cons f rest ih =>
    have hf := h f (List.mem_cons_self f rest)
    rw [hf, collect_boards, ih (fun g hg => h g (List.mem_cons_of_mem f hg))]
    rfl

/-- C9: shard loading raises exactly when some file of the directory is
unparsable or lacks the boards key; a directory whose files contribute no
board data at all (in particular an empty directory) is not an error and
yields the no-data result none, from which callers render nothing. -/
theorem shard_loading_error_iff (files : List ParsedFile) :
    ((∃ f ∈ files, f = ParsedFile.invalid ∨ f = ParsedFile.missingBoards)
      ↔ isError (get_sketches_reports files) = true)
    ∧ ((∀ f ∈ files, f = ParsedFile.valid []) → get_sketches_reports files = Except.ok none) := by
  constructor
  · rw [collect_boards_error_iff files, get_sketches_reports]
    cases collect_boards files with
    | error e => rfl
    | ok frags =>
      by_cases h : frags.isEmpty <;> simp [h, isError]
  · intro h
    rw [get_sketches_reports, collect_boards_all_empty files h]
    rfl

/-- C9 witness: a directory holding one valid file with an empty boards
array yields the no-data result, and a directory holding one unparsable
file yields an error. -/
theorem shard_loading_error_iff_witness :
    get_sketches_reports [ParsedFile.valid []] = Except.ok none
    ∧ isError (get_sketches_reports [ParsedFile.invalid]) = true :=
  ⟨(shard_loading_error_iff [ParsedFile.valid []]).2 (by simp),
   (shard_loading_error_iff [ParsedFile.invalid]).1.mp
     ⟨ParsedFile.invalid, by simp, Or.inl rfl⟩⟩

theorem if_gt_eq_max {α : Type} [LinearOrder α] (m d : α) : (if d > m then d else m) = max m d := by
  rcases le_or_lt d m with h | h
  · rw [if_neg (not_lt.mpr h), max_eq_left h]
  · rw [if_pos h, max_eq_right h.le]

theorem if_lt_eq_min {α : Type} [LinearOrder α] (m d : α) : (if d < m then d else m) = min m d := by
  rcases le_or_lt m d with h | h
  · rw [if_neg (not_lt.mpr h), min_eq_left h]
  · rw [if_pos h, min_eq_right h.le]

theorem updateAcc_eq_specStep (a : Acc) (d : Delta) : updateAcc a d = specStep a d := by
  rw [updateAcc, specStep]
  simp only [Acc.mk.injEq]
  exact ⟨if_gt_eq_max _ _, if_lt_eq_min _ _, if_gt_eq_max _ _, if_lt_eq_min _ _,
         if_gt_eq_max _ _, if_lt_eq_min _ _, if_gt_eq_max _ _, if_lt_eq_min _ _⟩

theorem matchedDeltas_cons_none (masters : List Board) (target : String)
    (sk : Sample) (rest : List Sample)
    (hfind : find_master_sketch masters target sk.name = none) :
    matchedDeltas masters target (sk :: rest) = matchedDeltas masters target rest := by
  simp [matchedDeltas, List.filterMap_cons, hfind]

theorem matchedDeltas_cons_some (masters : List Board) (target : String)
    (sk m : Sample) (rest : List Sample)
    (hfind : find_master_sketch masters target sk.name = some m) :
    matchedDeltas masters target (sk :: rest)
      = delta_values sk m :: matchedDeltas masters target rest := by
  simp [matchedDeltas, List.filterMap_cons, hfind]

theorem sketchLoop_acc (masters : List Board) (target : String) (bc col : Nat) :
    ∀ (sketches : List Sample) (rep : List (List Cell)) (acc : Acc),
      (∀ sk ∈ sketches, baselineNonzero masters target sk = true) →
      (sketchLoop masters target bc col sketches (rep, acc)).map Prod.snd
        = Except.ok ((matchedDeltas masters target sketches).foldl updateAcc acc) := by
  intro sketches
  induction sketches with
  | nil =>
    intro rep acc h
    simp [sketchLoop, matchedDeltas, Except.map]
  | cons sk rest ih =>
    intro rep acc h
    have hsk := h sk (List.mem_cons_self sk rest)
    have hrest : ∀ s ∈ rest, baselineNonzero masters target s = true :=
      fun s hs => h s (List.mem_cons_of_mem sk hs)
    cases hfind : find_master_sketch masters target sk.name with
    | none =>
      rw [matchedDeltas_cons_none masters target sk rest hfind]
      simp only [sketchLoop, sketchStep, hfind]
      exact ih _ acc hrest
    | some m =>
      rw [baselineNonzero, hfind] at hsk
      simp only [Bool.and_eq_true, Bool.not_eq_true', beq_eq_false_iff_ne] at hsk
      have hdelta : sketchDelta sk m = Except.ok (delta_values sk m) := by
        rw [sketchDelta, if_neg (not_or.mpr ⟨hsk.1, hsk.2⟩)]
      rw [matchedDeltas_cons_some masters target sk m rest hfind, List.foldl_cons]
      simp only [sketchLoop, sketchStep, hfind, hdelta]
      exact ih _ _ hrest

theorem foldl_specStep_max_zero (ds : List Delta) :
    ∀ a : Acc,
      (∀ d ∈ ds, d.flash_delta_bytes < 0 ∧ d.ram_delta_bytes < 0
        ∧ d.flash_delta_percentage < 0 ∧ d.ram_delta_percentage < 0) →
      a.flash_b_max = 0 → a.ram_b_max = 0 → a.flash_p_max = 0 → a.ram_p_max = 0 →
      (ds.foldl specStep a).flash_b_max = 0 ∧ (ds.foldl specStep a).ram_b_max = 0
        ∧ (ds.foldl specStep a).flash_p_max = 0 ∧ (ds.foldl specStep a).ram_p_max = 0 := by
  induction ds with
  | nil =>
    intro a h h1 h2 h3 h4
    exact ⟨h1, h2, h3, h4⟩
  | cons d ds ih =>
    intro a h h1 h2 h3 h4
    have hd := h d (List.mem_cons_self d ds)
    rw [List.foldl_cons]
    refine ih (specStep a d) (fun e he => h e (List.mem_cons_of_mem d he)) ?_ ?_ ?_ ?_
    · rw [specStep]; simpa [h1] using max_eq_left hd.1.le
    · rw [specStep]; simpa [h2] using max_eq_left hd.2.1.le
    · rw [specStep]; simpa [h3] using max_eq_left hd.2.2.1.le
    · rw [specStep]; simpa [h4] using max_eq_left hd.2.2.2.le

/-- C4: for any board, the summary row appended by the per-board loop
carries exactly the fold of min and max, seeded at (0, 0), over the deltas
of that board's baseline-matched samples (in particular unmatched samples
leave every extreme unchanged); and a board whose matched deltas are all
negative still reports every max as 0. -/
theorem summary_minmax_fold (masters : List Board) (bc : Nat) (b : Board)
    (report : List (List Cell)) (srows : List SummaryRow) (col : Nat)
    (h : ∀ sk ∈ b.sketches, baselineNonzero masters b.target sk = true) :
    (boardStep masters bc (report, srows, col) b).map (fun st => st.2.1)
      = Except.ok
          (srows ++ [mkSummaryRow b.target (specFold (matchedDeltas masters b.target b.sketches))])
    ∧ ((∀ d ∈ matchedDeltas masters b.target b.sketches,
          d.flash_delta_bytes < 0 ∧ d.ram_delta_bytes < 0
            ∧ d.flash_delta_percentage < 0 ∧ d.ram_delta_percentage < 0) →
        (specFold (matchedDeltas masters b.target b.sketches)).flash_b_max = 0
          ∧ (specFold (matchedDeltas masters b.target b.sketches)).ram_b_max = 0
          ∧ (specFold (matchedDeltas masters b.target b.sketches)).flash_p_max = 0
          ∧ (specFold (matchedDeltas masters b.target b.sketches)).ram_p_max = 0) := by
  have hfuneq : updateAcc = specStep :=
    funext fun a => funext fun d => updateAcc_eq_specStep a d
  constructor
  · have hloop := sketchLoop_acc masters b.target bc col b.sketches
      (modifyRow (fun row => row ++ [Cell.s (pyUpper b.target)]) 0 report) accZero h
    cases hres : sketchLoop masters b.target bc col b.sketches
        (modifyRow (fun row => row ++ [Cell.s (pyUpper b.target)]) 0 report, accZero) with
    | error e => rw [hres] at hloop; exact absurd hloop (by simp [Except.map])
    | ok st2 =>
      obtain ⟨rep2, acc2⟩ := st2
      rw [hres] at hloop
      have hacc : acc2 = (matchedDeltas masters b.target b.sketches).foldl updateAcc accZero := by
        simpa [Except.map] using hloop
      simp only [boardStep, hres, Except.map]
      rw [hacc, specFold, hfuneq]
  · intro hneg
    rw [specFold]
    exact foldl_specStep_max_zero (matchedDeltas masters b.target b.sketches) accZero hneg
      rfl rfl rfl rfl

/-- C4 witness: one board with a single matched sketch whose deltas are all
negative; the appended summary row is the seeded fold of its matched
deltas. -/
theorem summary_minmax_fold_witness :
    (boardStep c4masters 1
        ([[Cell.s first_row_heading], [Cell.s second_row_heading, Cell.s "FLASH", Cell.s "RAM"]],
         [], 1) c4board).map (fun st => st.2.1)
      = Except.ok
          [mkSummaryRow c4board.target (specFold (matchedDeltas c4masters c4board.target c4board.sketches))] := by
  have h := (summary_minmax_fold c4masters 1 c4board
    [[Cell.s first_row_heading], [Cell.s second_row_heading, Cell.s "FLASH", Cell.s "RAM"]]
    [] 1 (by decide)).1
  simpa using h

theorem mergeInto_nil (b : Board) : mergeInto [] b = b := by
  simp [mergeInto]

theorem patch_board (f b : Board) :
    (if b.board == f.board then { b with sketches := b.sketches ++ f.sketches } else b).board
      = b.board := by
  by_cases h : (b.board == f.board) = true <;> simp [h]

theorem mergeInto_cons (f : Board) (rest : List Board) (b : Board) :
    mergeInto rest (if b.board == f.board then { b with sketches := b.sketches ++ f.sketches } else b)
      = mergeInto (f :: rest) b := by
  by_cases hb : b.board = f.board
  · rw [if_pos (by simp [hb])]
    simp only [mergeInto, List.filter_cons]
    rw [if_pos (by simp [hb])]
    simp [List.append_assoc]
  · rw [if_neg (by simp [hb])]
    simp only [mergeInto, List.filter_cons]
    rw [if_neg (by simp; exact fun hh => hb hh.symm)]

theorem foldl_addFrag_spec :
    ∀ (frags acc : List Board),
      (acc.map Board.board).Nodup →
      frags.foldl addFrag acc
        = acc.map (mergeInto frags)
          ++ spec_consolidate (frags.filter (fun f => !(acc.any (fun b => b.board == f.board)))) := by
  intro frags
  induction frags with
  | nil =>
    intro acc hnd
    have hid : acc.map (mergeInto []) = acc.map id :=
      List.map_congr_left (fun b _ => mergeInto_nil b)
    simp [spec_consolidate, hid]
  | cons f rest ih =>
    intro acc hnd
    rw [List.foldl_cons]
    by_cases hin : (acc.any (fun b => b.board == f.board)) = true
    · -- the board already has an entry: merge into it
      rw [addFrag, if_pos hin]
      have hboards : (acc.map (fun b =>
          if b.board == f.board then { b with sketches := b.sketches ++ f.sketches } else b)).map
            Board.board = acc.map Board.board := by
        rw [List.map_map]
        exact List.map_congr_left (fun b _ => patch_board f b)
      have hnd2 : ((acc.map (fun b =>
          if b.board == f.board then { b with sketches := b.sketches ++ f.sketches } else b)).map
            Board.board).Nodup := by
        rw [hboards]; exact hnd
      rw [ih _ hnd2, List.map_map]
      have hmap : acc.map ((mergeInto rest) ∘ (fun b =>
          if b.board == f.board then { b with sketches := b.sketches ++ f.sketches } else b))
          = acc.map (mergeInto (f :: rest)) := by
        exact List.map_congr_left (fun b _ => mergeInto_cons f rest b)
      rw [hmap]
      have hany : ∀ g : Board,
          ((acc.map (fun b =>
            if b.board == f.board then { b with sketches := b.sketches ++ f.sketches } else b)).any
              (fun b => b.board == g.board))
            = acc.any (fun b => b.board == g.board) := by
        intro g
        rw [List.any_map]
        have hfun : ((fun b : Board => b.board == g.board) ∘ (fun b =>
            if b.board == f.board then { b with sketches := b.sketches ++ f.sketches } else b))
            = (fun b : Board => b.board == g.board) :=
          funext fun b => by rw [Function.comp_apply, patch_board]
        rw [hfun]
      have hfilter : rest.filter (fun g => !((acc.map (fun b =>
            if b.board == f.board then { b with sketches := b.sketches ++ f.sketches } else b)).any
              (fun b => b.board == g.board)))
          = rest.filter (fun g => !(acc.any (fun b => b.board == g.board))) :=
        List.filter_congr (fun g _ => by rw [hany g])
      rw [hfilter, List.filter_cons, if_neg (by simp [hin])]
    · -- new board: append a fresh entry
      rw [addFrag, if_neg hin]
      have hanyf : (acc.any (fun b => b.board == f.board)) = false := by
        simpa using hin
      have hnotmem : ∀ b ∈ acc, ¬(b.board = f.board) := by
        intro b hb heq
        exact hin (List.any_eq_true.mpr ⟨b, hb, by simp [heq]⟩)
      have hnd2 : (((acc ++ [f]).map Board.board)).Nodup := by
        rw [List.map_append]
        simp only [List.nodup_append, List.map_cons, List.map_nil]
        refine ⟨hnd, List.nodup_singleton _, ?_⟩
        intro x hx
        simp only [List.mem_map] at hx
        obtain ⟨b, hb, hbx⟩ := hx
        simp only [List.mem_singleton]
        intro hxf
        exact hnotmem b hb (hbx.trans hxf)
      rw [ih _ hnd2, List.map_append]
      have hmap : acc.map (mergeInto rest) = acc.map (mergeInto (f :: rest)) := by
        refine List.map_congr_left (fun b hb => ?_)
        simp only [mergeInto, List.filter_cons]
        rw [if_neg (by simp; exact fun hh => hnotmem b hb hh.symm)]
      rw [List.map_cons, List.map_nil, hmap]
      have hLfilter : rest.filter (fun g => !((acc ++ [f]).any (fun b => b.board == g.board)))
          = (rest.filter (fun g => !(acc.any (fun b => b.board == g.board)))).filter
              (fun g => !(g.board == f.board)) := by
        rw [List.filter_filter]
        refine List.filter_congr (fun g _ => ?_)
        rw [List.any_append]
        by_cases hg : g.board = f.board
        · have h1 : (acc.any (fun b => b.board == g.board)) = false := by
            rw [List.any_eq_false]
            intro b hb
            simp only [beq_iff_eq]
            exact fun hbg => hnotmem b hb (hbg.trans hg)
          have h4 : (f.board == g.board) = true := by simp [hg]
          have h5 : (g.board == f.board) = true := by simp [hg]
          simp [h1, h4, h5]
        · have h2 : (f.board == g.board) = false := by
            simp only [beq_eq_false_iff_ne, ne_eq]
            exact fun hh => hg hh.symm
          have h3 : (g.board == f.board) = false := by
            simp only [beq_eq_false_iff_ne, ne_eq]
            exact hg
          simp [h2, h3]
      rw [hLfilter]
      rw [List.filter_cons, if_pos (by simp [hanyf])]
      simp only [spec_consolidate]
      have hfeq : (rest.filter (fun g => !(acc.any (fun b => b.board == g.board)))).filter
              (fun g => g.board == f.board)
          = rest.filter (fun g => g.board == f.board) := by
        rw [List.filter_filter]
        refine List.filter_congr (fun g _ => ?_)
        by_cases hg : g.board = f.board
        · have h1 : (acc.any (fun b => b.board == g.board)) = false := by
            rw [List.any_eq_false]
            intro b hb
            simp only [beq_iff_eq]
            exact fun hbg => hnotmem b hb (hbg.trans hg)
          simp [h1]
        · simp [hg]
      rw [hfeq, List.append_assoc]
      rfl

/-- C6: consolidation of board-group fragments produces exactly one group
per distinct board id in first-seen order, the first fragment fixing the
target label and the sketch lists of all fragments of that board being
concatenated in encounter order with duplicates kept; in particular two
fragments for board uno with sketch lists [A, B] and [C] consolidate to
one group with samples [A, B, C] under the first fragment's target. -/
theorem consolidation_matches_spec :
    (∀ frags : List Board, consolidate_boards frags = spec_consolidate frags)
    ∧ consolidate_boards [c6frag1, c6frag2] = [⟨"uno", "t", [c6sA, c6sB, c6sC]⟩] := by
  constructor
  · intro frags
    rw [consolidate_boards, foldl_addFrag_spec frags [] (by simp)]
    simp
  · decide

theorem str_len_left (u v : String) : u.length ≤ (u ++ v).length := by
  rw [String.length_append]; omega

theorem str_len_right (u v : String) : v.length ≤ (u ++ v).length := by
  rw [String.length_append]; omega

theorem summary_data_row_html_length (row : List String) :
    10 ≤ (summary_data_row_html row).length := by
  rw [summary_data_row_html.eq_def]
  simp only [String.length_append]
  have h1 : ("<tr>" : String).length = 4 := by decide
  have h2 : ("</tr>\n" : String).length = 6 := by decide
  omega

theorem concat_data_rows_length (rows : List (List String)) :
    10 * rows.length ≤ (concatStrings (rows.map summary_data_row_html)).length := by
  induction rows with
  | nil => simp [concatStrings]
  | cons r rest ih =>
    rw [List.map_cons, concatStrings, String.length_append, List.length_cons]
    have hr := summary_data_row_html_length r
    omega

theorem summary_table_length (rows : List (List String)) (h1 h2 : List String) :
    10 * (rows.length + 1) ≤ (generate_summary_html_table (h1 :: h2 :: rows)).length := by
  rw [generate_summary_html_table]
  simp only [String.length_append]
  have hc : 10 * (rows.length + 1)
      ≤ (concatStrings (((h1 :: h2 :: rows).drop 1).map summary_data_row_html)).length := by
    have := concat_data_rows_length ((h1 :: h2 :: rows).drop 1)
    simpa using this
  omega

theorem c7_boardStep (bc col : Nat) (r0 r1 : List Cell) (srows : List SummaryRow) :
    boardStep [] bc ([r0, r1], srows, col) c7board
      = Except.ok ([r0 ++ [Cell.s (pyUpper "T")], r1],
          srows ++ [mkSummaryRow "T" accZero], col + 2) := rfl

theorem c7_boardLoop (bc : Nat) :
    ∀ (n : Nat) (r0 r1 : List Cell) (srows : List SummaryRow) (col : Nat),
      boardLoop [] bc (List.replicate n c7board) ([r0, r1], srows, col)
        = Except.ok ([r0 ++ List.replicate n (Cell.s (pyUpper "T")), r1],
            srows ++ List.replicate n (mkSummaryRow "T" accZero), col + 2 * n) := by
  intro n
  induction n with
  | zero =>
    intro r0 r1 srows col
    simp [boardLoop]
  | succ n ih =>
    intro r0 r1 srows col
    rw [List.replicate_succ]
    simp only [boardLoop, c7_boardStep]
    rw [ih (r0 ++ [Cell.s (pyUpper "T")]) r1 (srows ++ [mkSummaryRow "T" accZero]) (col + 2)]
    have e1 : (r0 ++ [Cell.s (pyUpper "T")]) ++ List.replicate n (Cell.s (pyUpper "T"))
        = r0 ++ List.replicate (n + 1) (Cell.s (pyUpper "T")) := by
      rw [List.append_assoc, List.singleton_append, ← List.replicate_succ]
    have e2 : (srows ++ [mkSummaryRow "T" accZero]) ++ List.replicate n (mkSummaryRow "T" accZero)
        = srows ++ List.replicate (n + 1) (mkSummaryRow "T" accZero) := by
      rw [List.append_assoc, List.singleton_append, ← List.replicate_succ]
    have e3 : col + 2 + 2 * n = col + 2 * (n + 1) := by omega
    rw [e1, e2, e3]

theorem c7_build (n : Nat) :
    build_report_data (List.replicate n c7board) []
      = Except.ok
          ([Cell.s first_row_heading :: List.replicate n (Cell.s (pyUpper "T")),
            Cell.s second_row_heading
              :: pairCells (Cell.s "FLASH") (Cell.s "RAM") (List.replicate n c7board).length],
           List.replicate n (mkSummaryRow "T" accZero)) := by
  simp only [build_report_data]
  rw [c7_boardLoop]
  simp

theorem c7_processDetail (r0 r1 : List Cell) : processDetail [r0, r1] = Except.ok [r0, r1] := rfl

theorem c7_report_length (n : Nat) :
    10 * n + 10 ≤ reportLen (generate_report (List.replicate n c7board) []) := by
  simp only [generate_report, c7_build n, c7_processDetail, reportLen]
  have htable : 10 * (n + 1)
      ≤ (generate_summary_html_table
          (summary_header_1 :: summary_header_2
            :: (List.replicate n (mkSummaryRow "T" accZero)).map processSummaryRow)).length := by
    have := summary_table_length
      ((List.replicate n (mkSummaryRow "T" accZero)).map processSummaryRow)
      summary_header_1 summary_header_2
    simpa using this
  simp only [String.length_append]
  omega

/-- C7 (amended): generate_report defines the 262,144-character budget
constant but never applies it: the assembled body is returned without any
truncation or rejection and its length grows without bound in the number
of boards (at least 10 characters per summary row). -/
theorem report_length_unbounded (n : Nat) :
    10 * n ≤ reportLen (generate_report (List.replicate n c7board) []) :=
  le_trans (by omega) (c7_report_length n)

/-- C7 counterexample: a report over 26215 boards is returned whole with a
body longer than the 262,144-character budget, so generation neither
truncates nor rejects over-length reports. -/
theorem report_budget_exceeded :
    maximum_report_length < reportLen (generate_report (List.replicate 26215 c7board) []) := by
  have h := c7_report_length 26215
  rw [maximum_report_length]
  omega

end ReportSizeDeltas
